import Mathlib

/-!
Verification of the kinegraph drawing/animation core against its
natural-language specification.  The definitions below are a shallow
embedding of the TypeScript sources: the `Canvas2DRenderer` layer store and
command executor (`src/lib/renderer/canvasRenderer.ts`), the Tauri-side
`DrawingEngine` wrapper, the worker-side stroke session tracker
(`src/lib/wasmCanvasWorker.ts`), the stroke-resampling interpolation, the
two request/response transports (`src/lib/wasmCanvas.ts` and the
`WasmDrawEngine` issuer), the `useWasmCanvas` input validation, and the
`useCanvas` backend selector.  Pixel buffers are modelled as the list of
drawing operations applied to them (equal operation lists give equal
pixels); JavaScript numbers are modelled as exact rationals, with an
explicit `JSNum` type where NaN / Infinity behaviour matters.
-/

namespace Kinegraph

/-- Association-list lookup with string keys, mirroring `Map.get`. -/
def alookup {α : Type} (k : String) : List (String × α) → Option α
  | [] => none
  | (k2, v) :: rest => if k2 = k then some v else alookup k rest

/-! ## Canvas2DRenderer layer store (src/lib/renderer/canvasRenderer.ts) -/

/-- A 2-D point as used by the hybrid command protocol. -/
structure Pt where
  x : ℚ
  y : ℚ
deriving DecidableEq, Repr

/-- Axis-aligned rectangle from the hybrid command protocol. -/
structure Rect where
  x : ℚ
  y : ℚ
  width : ℚ
  height : ℚ
deriving DecidableEq, Repr

/-- Affine transform payload of `ApplyTransform`. -/
structure Transform where
  translate_x : ℚ
  translate_y : ℚ
  scale_x : ℚ
  scale_y : ℚ
  rotation : ℚ
deriving DecidableEq, Repr

/-- One drawing operation applied to a layer canvas.  A layer's pixel
content is modelled as the list of operations applied since creation:
equal operation lists denote pixel-identical buffers. -/
inductive CanvasOp
  | strokePath (points : List Pt) (color : String) (width : ℚ)
  | putImage (rect : Rect) (pixel_data : List ℕ)
  | transformed (t : Transform)
deriving DecidableEq, Repr

/-- A layer-owned canvas: its content (operation list) and the `dataset`
properties stored by `updateLayerProperties`. -/
structure LayerCanvas where
  ops : List CanvasOp
  dsOpacity : Option ℚ
  dsBlendMode : Option String
  dsVisible : Option Bool
deriving DecidableEq, Repr

/-- A freshly created, transparent layer canvas (`createLayerCanvas`). -/
def emptyLayerCanvas : LayerCanvas := ⟨[], none, none, none⟩

/-- State of `Canvas2DRenderer`: the id-keyed layer map (insertion
ordered, as a JavaScript `Map`) and the draw order `layerOrder`. -/
structure RendererState where
  layers : List (String × LayerCanvas)
  layerOrder : List String
deriving DecidableEq, Repr

/-- Renderer state right after `init`: no layers. -/
def initialRenderer : RendererState := ⟨[], []⟩

/-- The closed command vocabulary of the hybrid protocol
(`src/lib/hybridCommands.ts`). -/
inductive DrawCommand
  | clearCanvas
  | drawPath (points : List Pt) (color : String) (width : ℚ) (layer_id : String)
  | updateRasterArea (rect : Rect) (pixel_data : List ℕ) (layer_id : String)
  | addLayer (layer_id : String) (index : ℕ)
  | removeLayer (layer_id : String)
  | reorderLayers (layer_ids : List String)
  | updateLayerProperties (layer_id : String) (opacity : ℚ) (blend_mode : String) (visible : Bool)
  | showSelection
  | clearSelection
  | applyTransform (layer_id : String) (transform : Transform)
  | batch (commands : List DrawCommand)

/-- Replace the canvas stored under `id` (other entries untouched). -/
def modifyLayer (layers : List (String × LayerCanvas)) (id : String)
    (f : LayerCanvas → LayerCanvas) : List (String × LayerCanvas) :=
  layers.map (fun p => if p.1 = id then (p.1, f p.2) else p)

/-- Model of `getOrCreateLayer`: create a fresh canvas and append the id to the
draw order when the id is absent. -/
def getOrCreateLayer (s : RendererState) (id : String) : RendererState :=
  if (alookup id s.layers).isSome then s
  else ⟨s.layers ++ [(id, emptyLayerCanvas)], s.layerOrder ++ [id]⟩

/-- Model of `Array.prototype.splice(index, 0, id)` for a non-negative index:
insert at `index`, appending when `index` exceeds the length. -/
def spliceInsert (index : ℕ) (id : String) (l : List String) : List String :=
  l.take index ++ id :: l.drop index

/-- Model of `addLayer`: keep an existing canvas, then move the id to the
requested position in the draw order. -/
def rendererAddLayer (s : RendererState) (id : String) (index : ℕ) : RendererState :=
  let layers := if (alookup id s.layers).isSome then s.layers
                else s.layers ++ [(id, emptyLayerCanvas)]
  ⟨layers, spliceInsert index id (s.layerOrder.filter (fun x => x ≠ id))⟩

/-- Model of `removeLayer`: delete from the map and the draw order; absent ids
fall through silently. -/
def rendererRemoveLayer (s : RendererState) (id : String) : RendererState :=
  ⟨s.layers.filter (fun p => p.1 ≠ id), s.layerOrder.filter (fun x => x ≠ id)⟩

/-- Model of `drawPath`: the layer is created first, then point lists shorter
than two are ignored. -/
def rendererDrawPath (s : RendererState) (points : List Pt) (color : String)
    (width : ℚ) (id : String) : RendererState :=
  let s1 := getOrCreateLayer s id
  if points.length < 2 then s1
  else ⟨modifyLayer s1.layers id
          (fun c => { c with ops := c.ops ++ [.strokePath points color width] }),
        s1.layerOrder⟩

/-- Model of `updateRasterArea`: create the layer if needed and blit the pixels. -/
def rendererUpdateRasterArea (s : RendererState) (rect : Rect)
    (pixel_data : List ℕ) (id : String) : RendererState :=
  let s1 := getOrCreateLayer s id
  ⟨modifyLayer s1.layers id
      (fun c => { c with ops := c.ops ++ [.putImage rect pixel_data] }),
    s1.layerOrder⟩

/-- Model of `updateLayerProperties`: store the properties on the layer's dataset;
absent ids fall through silently. -/
def rendererUpdateLayerProperties (s : RendererState) (id : String)
    (opacity : ℚ) (blend : String) (visible : Bool) : RendererState :=
  if (alookup id s.layers).isSome then
    ⟨modifyLayer s.layers id
        (fun c => { c with dsOpacity := some opacity, dsBlendMode := some blend,
                           dsVisible := some visible }),
      s.layerOrder⟩
  else s

/-- Model of `applyTransform`: redraw the layer content through the transform;
absent ids return early. -/
def rendererApplyTransform (s : RendererState) (id : String) (t : Transform) :
    RendererState :=
  if (alookup id s.layers).isSome then
    ⟨modifyLayer s.layers id (fun c => { c with ops := c.ops ++ [.transformed t] }),
      s.layerOrder⟩
  else s

/-- Model of `clear`: wipe the main canvas and every layer canvas. -/
def rendererClear (s : RendererState) : RendererState :=
  ⟨s.layers.map (fun p => (p.1, { p.2 with ops := [] })), s.layerOrder⟩

/-- Model of `reorderLayers`: replace the draw order wholesale. -/
def rendererReorderLayers (s : RendererState) (ids : List String) : RendererState :=
  ⟨s.layers, ids⟩

mutual

/-- Model of `executeCommand`: dispatch one command against the layer store.  A
`Batch` executes its sub-commands in order with no validation pass and
no rollback. -/
def executeCommand (s : RendererState) : DrawCommand → RendererState
  | .clearCanvas => rendererClear s
  | .drawPath points color width id => rendererDrawPath s points color width id
  | .updateRasterArea rect pixel_data id => rendererUpdateRasterArea s rect pixel_data id
  | .addLayer id index => rendererAddLayer s id index
  | .removeLayer id => rendererRemoveLayer s id
  | .reorderLayers ids => rendererReorderLayers s ids
  | .updateLayerProperties id opacity blend visible =>
      rendererUpdateLayerProperties s id opacity blend visible
  | .showSelection => s
  | .clearSelection => s
  | .applyTransform id t => rendererApplyTransform s id t
  | .batch cmds => executeCommandList s cmds

/-- Sequential execution of a command list (the loop body of the
`Batch` case and of the public `executeCommands`). -/
def executeCommandList (s : RendererState) : List DrawCommand → RendererState
  | [] => s
  | c :: cs => executeCommandList (executeCommand s c) cs

end

/-- Recognizer for the layer-structure commands of claim C10. -/
def isAddOrRemove : DrawCommand → Bool
  | .addLayer _ _ => true
  | .removeLayer _ => true
  | _ => false

/-! ## Tauri-side DrawingEngine wrapper (checkLayerExists and friends) -/

/-- Book-keeping record the wrapper keeps per created layer. -/
structure DrawingLayer where
  id : String
  width : ℕ
  height : ℕ
deriving DecidableEq, Repr

/-- Local state of the `DrawingEngine` wrapper class. -/
structure EngineState where
  isInitialized : Bool
  engineLayers : List (String × DrawingLayer)
deriving DecidableEq, Repr

/-- Model of `checkInitialized`: reject every operation before `initialize`. -/
def checkInitialized (s : EngineState) : Except String Unit :=
  if s.isInitialized then .ok () else .error "drawing engine not initialized"

/-- Model of `checkLayerExists`: reject ids absent from the wrapper's layer map. -/
def checkLayerExists (s : EngineState) (layerId : String) : Except String Unit :=
  if (alookup layerId s.engineLayers).isSome then .ok ()
  else .error ("layer not found: " ++ layerId)

/-- Run both wrapper guards in order, as every layer operation does. -/
def engineGuards (s : EngineState) (layerId : String) : Except String Unit :=
  match checkInitialized s with
  | .error e => .error e
  | .ok _ => checkLayerExists s layerId

/-- Model of `DrawingEngine.drawLine`: initialization and layer-existence checks
run before the backend call is issued. -/
def engineDrawLine (s : EngineState) (layerId : String)
    (x1 y1 x2 y2 : ℚ) (color : List ℚ) (width : ℚ) : Except String EngineState :=
  let _ := (x1, y1, x2, y2, color, width)
  match engineGuards s layerId with
  | .error e => .error e
  | .ok _ => .ok s

/-- Model of `DrawingEngine.drawStroke`: same guards, then an emptiness check. -/
def engineDrawStroke (s : EngineState) (layerId : String)
    (points : List (ℚ × ℚ × ℚ)) (color : List ℚ) : Except String EngineState :=
  let _ := color
  match engineGuards s layerId with
  | .error e => .error e
  | .ok _ =>
      if points.length = 0 then
        .error "stroke points empty: at least one point required"
      else .ok s

/-- Model of `DrawingEngine.clearLayer`: guarded by the same two checks. -/
def engineClearLayer (s : EngineState) (layerId : String) : Except String EngineState :=
  match engineGuards s layerId with
  | .error e => .error e
  | .ok _ => .ok s

/-- Model of `DrawingEngine.removeLayer`: guarded, then the local map entry is
deleted after the backend call succeeds. -/
def engineRemoveLayer (s : EngineState) (layerId : String) : Except String EngineState :=
  match engineGuards s layerId with
  | .error e => .error e
  | .ok _ => .ok { s with engineLayers := s.engineLayers.filter (fun p => p.1 ≠ layerId) }

/-! ## Worker-side stroke session tracker (src/lib/wasmCanvasWorker.ts) -/

/-- RGBA color with byte channels and a unit alpha, as in `types/drawing`. -/
structure Color where
  r : ℚ
  g : ℚ
  b : ℚ
  a : ℚ
deriving DecidableEq, Repr

/-- Brush tool parameters carried with every stroke session. -/
structure BrushTool where
  size : ℚ
  opacity : ℚ
  smoothing : ℚ
  pressureFlag : Bool
deriving DecidableEq, Repr

/-- One `draw_stroke` invocation handed to the WASM drawing context:
a flat `[x, y, x, y, ...]` point array, a normalized color and a size. -/
structure DrawCall where
  flatPoints : List ℚ
  color : List ℚ
  size : ℚ
deriving DecidableEq, Repr

/-- Per-stroke record of the worker tracker (`StrokeData`). -/
structure StrokeData where
  flatPoints : List ℚ
  tool : BrushTool
  color : Color
deriving DecidableEq, Repr

/-- Worker tracker state: the active-stroke table, the id counter, and
the ledger of `draw_stroke` calls issued so far (the pixel state). -/
structure WorkerState where
  activeStrokes : List (String × StrokeData)
  strokeIdCounter : ℕ
  drawn : List DrawCall
deriving DecidableEq, Repr

/-- Normalized `[r/255, g/255, b/255, a]` array built before `draw_stroke`. -/
def normColor (c : Color) : List ℚ := [c.r / 255, c.g / 255, c.b / 255, c.a]

/-- Number of interpolation steps chosen by `drawLine`:
`Math.max(2, Math.ceil(distance / 2))`, one sample every two pixels. -/
def stepsOf (distance : ℚ) : ℕ := max 2 ⌈distance / 2⌉₊

/-- The interpolated sample list of `drawLine`: for `i = 0 .. steps`,
the point at parameter `t = i / steps` along the segment. -/
def interpPoints (x1 y1 x2 y2 : ℚ) (steps : ℕ) : List (ℚ × ℚ) :=
  (List.range (steps + 1)).map (fun (i : ℕ) =>
    (x1 + (x2 - x1) * ((i : ℚ) / (steps : ℚ)), y1 + (y2 - y1) * ((i : ℚ) / (steps : ℚ))))

/-- Flatten an `(x, y)` sample list into the `[x, y, x, y, ...]` shape
passed to `draw_stroke`. -/
def flattenPoints : List (ℚ × ℚ) → List ℚ
  | [] => []
  | (x, y) :: rest => x :: y :: flattenPoints rest

/-- Model of `drawLine` of the worker: resample the segment at the two-pixel step
and issue one `draw_stroke` call.  The floating-point
`Math.sqrt((x2-x1)^2 + (y2-y1)^2)` is abstracted by the `sqrtA`
parameter applied to the squared distance. -/
def workerDrawLine (sqrtA : ℚ → ℚ) (s : WorkerState) (x1 y1 x2 y2 : ℚ)
    (tool : BrushTool) (color : Color) : WorkerState :=
  let distance := sqrtA ((x2 - x1) ^ 2 + (y2 - y1) ^ 2)
  let steps := stepsOf distance
  { s with drawn := s.drawn ++
      [⟨flattenPoints (interpPoints x1 y1 x2 y2 steps), normColor color, tool.size⟩] }

/-- Model of `drawSinglePoint`: a tap is drawn as a minimal-length segment: the
point and a copy offset by `0.01` in both coordinates. -/
def workerDrawSinglePoint (s : WorkerState) (x y : ℚ) (tool : BrushTool)
    (color : Color) : WorkerState :=
  { s with drawn := s.drawn ++
      [⟨[x, y, x + 1/100, y + 1/100], normColor color, tool.size⟩] }

/-- Model of `startStroke` of the worker: allocate a fresh id, register the
session with the first point, and draw the single-point dab. -/
def workerStartStroke (s : WorkerState) (x y : ℚ) (tool : BrushTool)
    (color : Color) : WorkerState × String :=
  let strokeId := toString s.strokeIdCounter
  let s1 : WorkerState :=
    { s with activeStrokes := s.activeStrokes ++ [(strokeId, ⟨[x, y], tool, color⟩)],
             strokeIdCounter := s.strokeIdCounter + 1 }
  (workerDrawSinglePoint s1 x y tool color, strokeId)

/-- Model of `addPoint` of the worker: unknown session ids are rejected with a
`Stroke <id> not found` error before any drawing happens; otherwise the
segment from the previous point is resampled and drawn and the point is
appended to the session. -/
def workerAddPoint (sqrtA : ℚ → ℚ) (s : WorkerState) (strokeId : String)
    (x y : ℚ) : Except String WorkerState :=
  match alookup strokeId s.activeStrokes with
  | none => .error ("Stroke " ++ strokeId ++ " not found")
  | some strokeData =>
      let n := strokeData.flatPoints.length
      let s1 :=
        if h : 2 ≤ n then
          let lastX := strokeData.flatPoints.get ⟨n - 2, by omega⟩
          let lastY := strokeData.flatPoints.get ⟨n - 1, by omega⟩
          workerDrawLine sqrtA s lastX lastY x y strokeData.tool strokeData.color
        else s
      .ok { s1 with activeStrokes :=
              s1.activeStrokes.map (fun p =>
                if p.1 = strokeId then
                  (p.1, { p.2 with flatPoints := p.2.flatPoints ++ [x, y] })
                else p) }

/-- Model of `endStroke` of the worker: a known session with at least one stored
point is redrawn as a whole and removed; an unknown id silently
completes (the delete of a missing key is a no-op). -/
def workerEndStroke (s : WorkerState) (strokeId : String) : WorkerState :=
  let s1 : WorkerState :=
    match alookup strokeId s.activeStrokes with
    | some strokeData =>
        if 2 ≤ strokeData.flatPoints.length then
          { s with drawn := s.drawn ++
              [⟨strokeData.flatPoints, normColor strokeData.color, strokeData.tool.size⟩] }
        else s
    | none => s
  { s1 with activeStrokes := s1.activeStrokes.filter (fun p => p.1 ≠ strokeId) }

/-! ## Canvas2DDrawingContext stroke tracker (src/lib/canvas2dContext.ts) -/

/-- One primitive painted by the Canvas-2D fallback context. -/
inductive C2DOp
  | dot (x y : ℚ) (tool : BrushTool) (color : Color)
  | segment (x1 y1 x2 y2 : ℚ) (tool : BrushTool) (color : Color)
deriving DecidableEq, Repr

/-- Per-stroke record of the Canvas-2D fallback. -/
structure C2DStroke where
  points : List Pt
  tool : BrushTool
  color : Color
deriving DecidableEq, Repr

/-- State of `Canvas2DDrawingContext`. -/
structure C2DState where
  activeStrokes : List (String × C2DStroke)
  strokeIdCounter : ℕ
  painted : List C2DOp
deriving DecidableEq, Repr

/-- Model of `Canvas2DDrawingContext.addPoint`: unknown ids are rejected with the
same `Stroke <id> not found` error; otherwise a segment from the last
point is painted and the point recorded. -/
def c2dAddPoint (s : C2DState) (strokeId : String) (p : Pt) :
    Except String C2DState :=
  match alookup strokeId s.activeStrokes with
  | none => .error ("Stroke " ++ strokeId ++ " not found")
  | some strokeData =>
      let s1 : C2DState :=
        match strokeData.points.getLast? with
        | some lastP =>
            { s with painted := s.painted ++
                [.segment lastP.x lastP.y p.x p.y strokeData.tool strokeData.color] }
        | none => s
      .ok { s1 with activeStrokes :=
              s1.activeStrokes.map (fun q =>
                if q.1 = strokeId then (q.1, { q.2 with points := q.2.points ++ [p] })
                else q) }

/-- Model of `Canvas2DDrawingContext.endStroke`: delete the session; a missing id
is a successful no-op. -/
def c2dEndStroke (s : C2DState) (strokeId : String) : C2DState :=
  { s with activeStrokes := s.activeStrokes.filter (fun p => p.1 ≠ strokeId) }

/-! ## Hybrid endDrawing (useHybridDrawing in src/lib/useLayerManagement.ts) -/

/-- What `endDrawing` forwards to the backend: `none` when the gesture
is not active or fewer than two points accumulated (the early return
that resets the state), otherwise the accumulated stroke. -/
def endDrawingEmits (isDrawing : Bool) (currentStroke : List Pt) : Option (List Pt) :=
  if !isDrawing || currentStroke.length < 2 then none
  else some currentStroke

/-! ## Id-correlated transport (src/lib/wasmCanvas.ts) -/

/-- Lifecycle of one issued request's completion: still pending, or
settled by a resolution or rejection. -/
inductive Outcome
  | pending
  | resolvedWith (data : String)
  | rejectedWith (err : String)
deriving DecidableEq, Repr

/-- A worker response: the echoed correlation id, an optional error and
a payload. -/
structure Response where
  id : String
  error : Option String
  data : String
deriving DecidableEq, Repr

/-- How the `message` handler settles a completion from a response. -/
def interpResponse (r : Response) : Outcome :=
  match r.error with
  | some e => .rejectedWith e
  | none => .resolvedWith r.data

/-- Issuer state of `WasmCanvasDrawingContext`: the ledger of issued
requests (an entry is in `pendingMessages` exactly while its outcome is
`pending`) and the `messageId` counter. -/
structure ClientState where
  entries : List (String × Outcome)
  messageId : ℕ
deriving DecidableEq, Repr

/-- Issuer state before any request. -/
def initialClient : ClientState := ⟨[], 0⟩

/-- Completion status of the request with the given correlation id. -/
def clientLookup (s : ClientState) (id : String) : Option Outcome :=
  alookup id s.entries

/-- Model of `sendMessage`: allocate the next id, register a pending completion,
post the message.  No timeout is scheduled. -/
def clientSend (s : ClientState) : ClientState × String :=
  let id := toString s.messageId
  (⟨s.entries ++ [(id, .pending)], s.messageId + 1⟩, id)

/-- Overwrite the value recorded under `id` in an association list. -/
def setEntry {α : Type} (entries : List (String × α)) (id : String) (v : α) :
    List (String × α) :=
  entries.map (fun p => if p.1 = id then (p.1, v) else p)

/-- The worker `message` listener: a response whose id has a pending
completion settles exactly that completion; any other id falls through
the `if (pending)` guard and is ignored. -/
def handleResponse (s : ClientState) (r : Response) : ClientState :=
  if alookup r.id s.entries = some .pending then
    ⟨setEntry s.entries r.id (interpResponse r), s.messageId⟩
  else s

/-- Process a sequence of incoming responses in arrival order. -/
def processResponses (s : ClientState) (rs : List Response) : ClientState :=
  rs.foldl handleResponse s

/-! ## Timed transport (WasmDrawEngine.sendRequest) -/

/-- Issuer state of `WasmDrawEngine`: the same pending ledger, keyed by
`<type>_<counter>` ids, plus the request counter. -/
structure WClient where
  wentries : List (String × Outcome)
  requestIdCounter : ℕ
deriving DecidableEq, Repr

/-- Model of `sendRequest`: register a pending completion under `<type>_<counter>`
and schedule a five-second timeout for it. -/
def wSendRequest (s : WClient) (ty : String) : WClient × String :=
  let id := ty ++ "_" ++ toString s.requestIdCounter
  (⟨s.wentries ++ [(id, .pending)], s.requestIdCounter + 1⟩, id)

/-- Whether a ledger entry is still awaiting its response. -/
def Outcome.isPending : Outcome → Bool
  | .pending => true
  | _ => false

/-- The timeout callback firing for request `id` of type `ty`: if the
entry is still pending it is removed from the table and the completion
rejected with a timed-out error; otherwise nothing happens. -/
def wExpire (s : WClient) (id : String) (ty : String) : WClient :=
  if alookup id s.wentries = some .pending then
    ⟨setEntry s.wentries id (.rejectedWith ("Request " ++ ty ++ " timed out")),
      s.requestIdCounter⟩
  else s

/-- Model of `handleWorkerMessage` for a success response of original type `ty`:
resolve the first still-pending entry whose id starts with `ty`; when no
entry matches (for example after a timeout removed it), the response is
discarded. -/
def wHandleResponse (s : WClient) (ty : String) (data : String) : WClient :=
  match s.wentries.find? (fun p => p.1.startsWith ty && p.2.isPending) with
  | some p => ⟨setEntry s.wentries p.1 (.resolvedWith data), s.requestIdCounter⟩
  | none => s

/-! ## Input validation (useWasmCanvas startStroke, Canvas pointer events) -/

/-- A JavaScript number: an exact rational, NaN, or a signed infinity. -/
inductive JSNum
  | num (q : ℚ)
  | nan
  | posInf
  | negInf
deriving DecidableEq, Repr

/-- Model of `Number.isNaN` (and the result of `isNaN` on a number input). -/
def JSNum.isNaN : JSNum → Bool
  | .nan => true
  | _ => false

/-- JavaScript falsiness of a number: `0` and `NaN` are falsy. -/
def JSNum.falsy : JSNum → Bool
  | .num q => q = 0
  | .nan => true
  | _ => false

/-- A pointer sample as fed to `startStroke`: coordinates and pressure
are raw JavaScript numbers. -/
structure SPoint where
  x : JSNum
  y : JSNum
  pressure : JSNum
deriving DecidableEq, Repr

/-- The guard of `startStroke` in the `useWasmCanvas` wrapper: only a
missing value or a NaN coordinate is rejected. -/
def startStrokeValid (p : SPoint) : Bool :=
  !(p.x.isNaN || p.y.isNaN)

/-- Session record of the `useWasmCanvas` wrapper. -/
structure StrokeInfo where
  firstPoint : SPoint
  tool : BrushTool
  color : Color
deriving DecidableEq, Repr

/-- State of the wrapper: its `activeStrokes` map. -/
structure WrapperState where
  activeStrokes : List (String × StrokeInfo)
deriving DecidableEq, Repr

/-- Model of `startStroke` of the `useWasmCanvas` wrapper: validate the point
(throwing `Invalid point coordinates` before any state change), then
register the stroke under the id `Date.now().toString()`, abstracted by
the `now` argument. -/
def wrapperStartStroke (s : WrapperState) (p : SPoint) (tool : BrushTool)
    (color : Color) (now : ℕ) : Except String (WrapperState × String) :=
  if !startStrokeValid p then .error "Invalid point coordinates"
  else
    let strokeId := toString now
    .ok ({ activeStrokes := s.activeStrokes ++ [(strokeId, ⟨p, tool, color⟩)] }, strokeId)

/-- Model of `const pressure = e.pressure || 1.0;` of the pointer handlers:
falsy pressures (an unsupported device reports `0`) default to `1.0`. -/
def pointerPressure (raw : JSNum) : JSNum :=
  if raw.falsy then .num 1 else raw

/-! ## Backend selector (useCanvas in the drawing-engine hook) -/

/-- The interchangeable drawing backends selectable by the atom. -/
inductive Engine
  | canvas2d
  | wasm
  | wasmWorker
deriving DecidableEq, Repr

/-- Result of the initialization effect: a live context or none. -/
inductive InitResult
  | ready (e : Engine)
  | notReady
deriving DecidableEq, Repr

/-- Model of `initEngine` of `useCanvas`: build the selected engine's context;
on failure fall back to Canvas-2D (unless that was already the
selection); when the fallback also fails, `isReady` stays false and no
context is stored. -/
def initEngine (selected : Engine) (fails : Engine → Bool) : InitResult :=
  if fails selected = false then .ready selected
  else if selected ≠ Engine.canvas2d ∧ fails Engine.canvas2d = false then
    .ready Engine.canvas2d
  else .notReady

/-- How a drawing entry point reacts to a request. -/
inductive DrawReaction
  | forwarded
  | silentlyIgnored
deriving DecidableEq, Repr

/-- Model of `startDrawing` of `useCanvas`: without a ready context it returns
at once, performing nothing and raising nothing. -/
def startDrawingReaction : InitResult → DrawReaction
  | .ready _ => .forwarded
  | .notReady => .silentlyIgnored

/-- Squared Euclidean distances between consecutive points of a sample
list (the gaps a stroke resampling leaves along a segment). -/
def consecutiveGapsSq : List (ℚ × ℚ) → List ℚ
  | (x1, y1) :: (x2, y2) :: rest =>
      ((x2 - x1) ^ 2 + (y2 - y1) ^ 2) :: consecutiveGapsSq ((x2, y2) :: rest)
  | _ => []

/-! ## Association-list lemmas shared by the claim proofs -/

theorem alookup_eq_none_forall {α : Type} {k : String} :
    ∀ {es : List (String × α)}, alookup k es = none → ∀ p ∈ es, p.1 ≠ k := by
  intro es
  induction es with
  | nil => intro _ p hp; cases hp
  | cons q rest ih =>
      obtain ⟨k2, v2⟩ := q
      intro h p hp
      by_cases hk : k2 = k
      · simp [alookup, hk] at h
      · simp only [alookup, if_neg hk] at h
        rcases List.mem_cons.mp hp with hp | hp
        · subst hp; exact hk
        · exact ih h p hp

theorem alookup_append_of_none {α : Type} {k : String} (fs : List (String × α)) :
    ∀ {es : List (String × α)}, alookup k es = none →
      alookup k (es ++ fs) = alookup k fs := by
  intro es
  induction es with
  | nil => intro _; rfl
  | cons q rest ih =>
      obtain ⟨k2, v2⟩ := q
      intro h
      by_cases hk : k2 = k
      · simp [alookup, hk] at h
      · simp only [alookup, if_neg hk] at h
        simpa [alookup, hk] using ih h

theorem setEntry_cons_eq {α : Type} {k : String} (v2 v : α)
    (rest : List (String × α)) :
    setEntry ((k, v2) :: rest) k v = (k, v) :: setEntry rest k v := by
  simp [setEntry]

theorem setEntry_cons_ne {α : Type} {k2 k : String} (hk : ¬ k2 = k) (v2 v : α)
    (rest : List (String × α)) :
    setEntry ((k2, v2) :: rest) k v = (k2, v2) :: setEntry rest k v := by
  simp [setEntry, hk]

theorem alookup_setEntry_self {α : Type} {k : String} :
    ∀ {es : List (String × α)} (v : α), (alookup k es).isSome →
      alookup k (setEntry es k v) = some v := by
  intro es
  induction es with
  | nil => intro v h; simp [alookup] at h
  | cons q rest ih =>
      obtain ⟨k2, v2⟩ := q
      intro v h
      by_cases hk : k2 = k
      · subst hk
        rw [setEntry_cons_eq]
        simp [alookup]
      · rw [setEntry_cons_ne hk]
        simp only [alookup, if_neg hk] at h ⊢
        exact ih v h

theorem alookup_setEntry_ne {α : Type} {j k : String} (hne : j ≠ k) :
    ∀ (es : List (String × α)) (v : α),
      alookup j (setEntry es k v) = alookup j es := by
  intro es
  induction es with
  | nil => intro v; rfl
  | cons q rest ih =>
      obtain ⟨k2, v2⟩ := q
      intro v
      by_cases hk : k2 = k
      · subst hk
        rw [setEntry_cons_eq]
        have hj : ¬ k2 = j := fun h => hne h.symm
        simp only [alookup, if_neg hj]
        exact ih v
      · rw [setEntry_cons_ne hk]
        by_cases hj : k2 = j
        · simp [alookup, hj]
        · simp only [alookup, if_neg hj]
          exact ih v

theorem alookup_setEntry_none {α : Type} {j k : String} :
    ∀ {es : List (String × α)} (v : α), alookup j es = none →
      alookup j (setEntry es k v) = none := by
  intro es
  induction es with
  | nil => intro v _; rfl
  | cons q rest ih =>
      obtain ⟨k2, v2⟩ := q
      intro v h
      by_cases hj : k2 = j
      · simp [alookup, hj] at h
      · simp only [alookup, if_neg hj] at h
        by_cases hk : k2 = k
        · subst hk
          rw [setEntry_cons_eq]
          simp only [alookup, if_neg hj]
          exact ih v h
        · rw [setEntry_cons_ne hk]
          simp only [alookup, if_neg hj]
          exact ih v h

theorem setEntry_of_none {α : Type} {k : String} :
    ∀ {es : List (String × α)} (v : α), alookup k es = none →
      setEntry es k v = es := by
  intro es
  induction es with
  | nil => intro v _; rfl
  | cons q rest ih =>
      obtain ⟨k2, v2⟩ := q
      intro v h
      by_cases hk : k2 = k
      · simp [alookup, hk] at h
      · simp only [alookup, if_neg hk] at h
        rw [setEntry_cons_ne hk, ih v h]

/-! ## Claim C1: Batch atomicity -/

theorem executeCommandList_eq_foldl (cmds : List DrawCommand) (s : RendererState) :
    executeCommandList s cmds = cmds.foldl executeCommand s := by
  induction cmds generalizing s with
  | nil => rfl
  | cons c cs ih => simp [executeCommandList, ih, List.foldl_cons]

/-- C1, counterexample.  A Batch whose second sub-command removes the
unknown layer id `B` is, per the claim, to be rejected wholesale with
the state left identical.  Executing it on the empty renderer instead
performs the first sub-command: layer `A` exists afterwards. -/
theorem batch_atomicity_counterexample :
    executeCommand initialRenderer
        (.batch [.addLayer "A" 0, .removeLayer "B"]) ≠ initialRenderer ∧
    (executeCommand initialRenderer
        (.batch [.addLayer "A" 0, .removeLayer "B"])).layerOrder = ["A"] := by
  constructor
  · intro h
    have := congrArg RendererState.layerOrder h
    simp [executeCommand, executeCommandList, rendererAddLayer, rendererRemoveLayer,
      initialRenderer, alookup, spliceInsert] at this
  · rfl

/-- C1, amended: Batch execution is not all-or-nothing.  A Batch runs
its sub-command list sequentially with no validation pass and no
rollback, so the mutations of every sub-command — before and after an
invalid one — persist: executing `Batch (pre ++ post)` equals executing
`Batch pre` and then `Batch post`. -/
theorem batch_executes_sequentially (s : RendererState) (cmds : List DrawCommand) :
    executeCommand s (.batch cmds) = cmds.foldl executeCommand s ∧
    ∀ pre post : List DrawCommand,
      executeCommand s (.batch (pre ++ post)) =
        executeCommand (executeCommand s (.batch pre)) (.batch post) := by
  refine ⟨executeCommandList_eq_foldl cmds s, ?_⟩
  intro pre post
  show executeCommandList s (pre ++ post) = _
  rw [executeCommandList_eq_foldl, List.foldl_append]
  show _ = executeCommandList (executeCommandList s pre) post
  rw [executeCommandList_eq_foldl, executeCommandList_eq_foldl]

/-! ## Claim C2: id-keyed operations on an absent layer id -/

/-- C2, counterexample.  In the `Canvas2DRenderer` layer store, removing
or updating the properties of the absent id `B` completes silently as a
no-op: the state is returned unchanged and no error channel exists. -/
theorem layer_not_found_counterexample :
    executeCommand ⟨[("A", emptyLayerCanvas)], ["A"]⟩ (.removeLayer "B") =
      ⟨[("A", emptyLayerCanvas)], ["A"]⟩ ∧
    executeCommand ⟨[("A", emptyLayerCanvas)], ["A"]⟩
        (.updateLayerProperties "B" (1/2) "multiply" true) =
      ⟨[("A", emptyLayerCanvas)], ["A"]⟩ := by
  constructor <;> rfl

/-- C2, amended: only the Tauri-side `DrawingEngine` wrapper fails its
layer operations with a layer-not-found error on an absent id; the
`Canvas2DRenderer` store silently completes `RemoveLayer`,
`UpdateLayerProperties` and `ApplyTransform` as no-ops on absent ids. -/
theorem layer_not_found_amended :
    (∀ (s : EngineState) (id : String), s.isInitialized = true →
        alookup id s.engineLayers = none →
        engineRemoveLayer s id = .error ("layer not found: " ++ id) ∧
        engineClearLayer s id = .error ("layer not found: " ++ id) ∧
        (∀ x1 y1 x2 y2 c w,
          engineDrawLine s id x1 y1 x2 y2 c w = .error ("layer not found: " ++ id)) ∧
        (∀ pts c, engineDrawStroke s id pts c = .error ("layer not found: " ++ id))) ∧
    (∀ (s : RendererState) (id : String), alookup id s.layers = none →
        id ∉ s.layerOrder →
        executeCommand s (.removeLayer id) = s ∧
        (∀ o b v, executeCommand s (.updateLayerProperties id o b v) = s) ∧
        (∀ t, executeCommand s (.applyTransform id t) = s)) := by
  constructor
  · intro s id hinit habs
    have hg : engineGuards s id = .error ("layer not found: " ++ id) := by
      simp [engineGuards, checkInitialized, checkLayerExists, hinit, habs]
    refine ⟨?_, ?_, ?_, ?_⟩
    · simp [engineRemoveLayer, hg]
    · simp [engineClearLayer, hg]
    · intro x1 y1 x2 y2 c w; simp [engineDrawLine, hg]
    · intro pts c; simp [engineDrawStroke, hg]
  · intro s id habs hord
    obtain ⟨ls, ord⟩ := s
    simp only at habs hord
    have hfilter : ls.filter (fun p => !decide (p.1 = id)) = ls := by
      apply List.filter_eq_self.mpr
      intro p hp
      simpa using alookup_eq_none_forall habs p hp
    have hordfilter : ord.filter (fun x => !decide (x = id)) = ord := by
      apply List.filter_eq_self.mpr
      intro x hx
      simpa using fun h : x = id => hord (h ▸ hx)
    refine ⟨?_, ?_, ?_⟩
    · show rendererRemoveLayer ⟨ls, ord⟩ id = (⟨ls, ord⟩ : RendererState)
      simp only [rendererRemoveLayer, RendererState.mk.injEq, ne_eq, decide_not]
      exact ⟨hfilter, hordfilter⟩
    · intro o b v
      show rendererUpdateLayerProperties ⟨ls, ord⟩ id o b v = (⟨ls, ord⟩ : RendererState)
      simp [rendererUpdateLayerProperties, habs]
    · intro t
      show rendererApplyTransform ⟨ls, ord⟩ id t = (⟨ls, ord⟩ : RendererState)
      simp [rendererApplyTransform, habs]

/-- C2, witness for the amended theorem at concrete inputs. -/
theorem layer_not_found_amended_witness :
    engineRemoveLayer ⟨true, [("A", ⟨"A", 4, 4⟩)]⟩ "B" =
      .error ("layer not found: " ++ "B") ∧
    executeCommand ⟨[("A", emptyLayerCanvas)], ["A"]⟩ (.removeLayer "B") =
      ⟨[("A", emptyLayerCanvas)], ["A"]⟩ :=
  ⟨(layer_not_found_amended.1 ⟨true, [("A", ⟨"A", 4, 4⟩)]⟩ "B" rfl rfl).1,
   (layer_not_found_amended.2 ⟨[("A", emptyLayerCanvas)], ["A"]⟩ "B" rfl
      (by decide)).1⟩

/-! ## Claim C3: a tap leaves a mark -/

/-- C3, counterexample.  A drawing session holding a single point (and
likewise an empty one) when `endDrawing` runs emits no command at all:
the stroke is silently dropped at `end`, not degraded to a dab. -/
theorem tap_dab_counterexample :
    endDrawingEmits true [⟨0, 0⟩] = none ∧ endDrawingEmits true [] = none := by
  constructor <;> rfl

/-- C3, amended: sessions with fewer than two points are dropped at
`end` without emitting a command (both by `endDrawing` and by the
`DrawPath` executor, which ignores short point lists); the visible mark
of a tap is produced at `begin` instead: the worker's `startStroke`
immediately draws a minimal-length-segment dab, the point paired with a
copy offset by `0.01`. -/
theorem tap_dab_amended :
    (∀ (b : Bool) (pts : List Pt), pts.length < 2 → endDrawingEmits b pts = none) ∧
    (∀ (s : WorkerState) (x y : ℚ) (tool : BrushTool) (color : Color),
        ((workerStartStroke s x y tool color).1).drawn =
          s.drawn ++ [⟨[x, y, x + 1/100, y + 1/100], normColor color, tool.size⟩]) := by
  constructor
  · intro b pts h
    simp [endDrawingEmits, h]
  · intro s x y tool color
    simp [workerStartStroke, workerDrawSinglePoint]

/-- C3, witness for the amended theorem at concrete inputs. -/
theorem tap_dab_amended_witness :
    endDrawingEmits false [⟨1, 2⟩] = none ∧
    ((workerStartStroke ⟨[], 0, []⟩ 5 7 ⟨3, 1, 1/2, true⟩ ⟨255, 0, 0, 1⟩).1).drawn =
      [] ++ [⟨[5, 7, 5 + 1/100, 7 + 1/100], normColor ⟨255, 0, 0, 1⟩, (3 : ℚ)⟩] :=
  ⟨tap_dab_amended.1 false [⟨1, 2⟩] (by decide),
   tap_dab_amended.2 ⟨[], 0, []⟩ 5 7 ⟨3, 1, 1/2, true⟩ ⟨255, 0, 0, 1⟩⟩

/-! ## Claim C7: begin-time input validation -/

/-- C7, counterexample.  `startStroke` accepts a point whose x
coordinate is positive Infinity and whose pressure is `5`, far outside
`[0, 1]`, and mutates the active-stroke table: the guard tests only
`isNaN` on the coordinates and never inspects the pressure. -/
theorem begin_validation_counterexample :
    wrapperStartStroke ⟨[]⟩ ⟨.posInf, .num 0, .num 5⟩ ⟨2, 1, 1/2, true⟩ ⟨0, 0, 0, 1⟩ 42 =
      .ok (⟨[("42", ⟨⟨.posInf, .num 0, .num 5⟩, ⟨2, 1, 1/2, true⟩, ⟨0, 0, 0, 1⟩⟩)]⟩,
           "42") := by
  rfl

/-- C7, amended: `begin` rejects NaN coordinates with an
`Invalid point coordinates` error before any state mutation, but
Infinity coordinates and out-of-range pressures pass unchecked; the
pointer handlers default a falsy (unreported, i.e. `0` or NaN) pressure
to `1.0` and keep any other value. -/
theorem begin_validation_amended :
    (∀ (s : WrapperState) (p : SPoint) (tool : BrushTool) (c : Color) (now : ℕ),
        (p.x.isNaN || p.y.isNaN) = true →
        wrapperStartStroke s p tool c now = .error "Invalid point coordinates") ∧
    pointerPressure (.num 0) = .num 1 ∧
    pointerPressure .nan = .num 1 ∧
    (∀ q : ℚ, q ≠ 0 → pointerPressure (.num q) = .num q) := by
  refine ⟨?_, rfl, rfl, ?_⟩
  · intro s p tool c now h
    simp [wrapperStartStroke, startStrokeValid, h]
  · intro q hq
    simp [pointerPressure, JSNum.falsy, hq]

/-- C7, witness for the amended theorem at concrete inputs. -/
theorem begin_validation_amended_witness :
    wrapperStartStroke ⟨[]⟩ ⟨.nan, .num 3, .num 1⟩ ⟨2, 1, 1/2, true⟩ ⟨0, 0, 0, 1⟩ 7 =
      .error "Invalid point coordinates" ∧
    pointerPressure (.num (1/2)) = .num (1/2) :=
  ⟨begin_validation_amended.1 ⟨[]⟩ ⟨.nan, .num 3, .num 1⟩ ⟨2, 1, 1/2, true⟩
      ⟨0, 0, 0, 1⟩ 7 rfl,
   begin_validation_amended.2.2.2 (1/2) (by norm_num)⟩

/-! ## Claim C8: backend fallback and the all-failed state -/

/-- C8, counterexample.  When the selected engine and the Canvas-2D
fallback both fail to initialize, the hook stores no context and
`isReady` stays false — and a subsequent `startDrawing` returns at once,
silently ignored, rather than being rejected with a dedicated error
kind. -/
theorem backend_fallback_counterexample :
    initEngine .wasm (fun _ => true) = .notReady ∧
    startDrawingReaction (initEngine .wasm (fun _ => true)) = .silentlyIgnored := by
  constructor <;> rfl

/-- C8, amended: `useCanvas` attempts the selected backend first and
falls back to Canvas-2D on failure (when Canvas-2D was not already the
selection); when every attempt fails, the hook never becomes ready and
every subsequent drawing request is silently ignored — no dedicated
error kind exists. -/
theorem backend_fallback_amended :
    (∀ (fails : Engine → Bool) (sel : Engine), fails sel = false →
        initEngine sel fails = .ready sel) ∧
    (∀ (fails : Engine → Bool) (sel : Engine), fails sel = true →
        sel ≠ Engine.canvas2d → fails Engine.canvas2d = false →
        initEngine sel fails = .ready Engine.canvas2d) ∧
    (∀ (fails : Engine → Bool) (sel : Engine), fails sel = true →
        fails Engine.canvas2d = true →
        initEngine sel fails = .notReady ∧
        startDrawingReaction (initEngine sel fails) = .silentlyIgnored) := by
  refine ⟨?_, ?_, ?_⟩
  · intro fails sel h
    simp [initEngine, h]
  · intro fails sel h hne hc
    simp [initEngine, h, hne, hc]
  · intro fails sel h hc
    have : initEngine sel fails = .notReady := by
      by_cases hsel : sel = Engine.canvas2d
      · subst hsel; simp [initEngine, h]
      · simp [initEngine, h, hsel, hc]
    exact ⟨this, by rw [this]; rfl⟩

/-- C8, witness for the amended theorem at concrete inputs. -/
theorem backend_fallback_amended_witness :
    initEngine .wasmWorker (fun e => decide (e = Engine.wasmWorker)) = .ready .canvas2d ∧
    initEngine .wasm (fun _ => true) = .notReady :=
  ⟨backend_fallback_amended.2.1 (fun e => decide (e = Engine.wasmWorker)) .wasmWorker
      (by decide) (by decide) (by decide),
   (backend_fallback_amended.2.2 (fun _ => true) .wasm rfl rfl).1⟩

/-! ## Claim C9: unknown stroke-session ids -/

/-- C9 (confirmed): for a session id absent from the active-stroke
table, `addPoint` fails with a `Stroke <id> not found` error without
touching the pixel state (the worker and the Canvas-2D fallback raise
the identical message), while `endStroke` with the same unknown id
completes successfully as a no-op rather than returning an error. -/
theorem unknown_stroke_handling (sw : WorkerState) (sc : C2DState) (id : String)
    (hw : alookup id sw.activeStrokes = none)
    (hc : alookup id sc.activeStrokes = none)
    (sqrtA : ℚ → ℚ) (x y : ℚ) (p : Pt) :
    workerAddPoint sqrtA sw id x y = .error ("Stroke " ++ id ++ " not found") ∧
    workerEndStroke sw id = sw ∧
    c2dAddPoint sc id p = .error ("Stroke " ++ id ++ " not found") ∧
    c2dEndStroke sc id = sc := by
  refine ⟨?_, ?_, ?_, ?_⟩
  · simp [workerAddPoint, hw]
  · obtain ⟨strokes, ctr, drawn⟩ := sw
    simp only at hw
    have hfil : strokes.filter (fun p => !decide (p.1 = id)) = strokes := by
      apply List.filter_eq_self.mpr
      intro q hq
      simpa using alookup_eq_none_forall hw q hq
    simp [workerEndStroke, hw, hfil]
  · simp [c2dAddPoint, hc]
  · obtain ⟨strokes, ctr, painted⟩ := sc
    simp only at hc
    have hfil : strokes.filter (fun p => !decide (p.1 = id)) = strokes := by
      apply List.filter_eq_self.mpr
      intro q hq
      simpa using alookup_eq_none_forall hc q hq
    simp [c2dEndStroke, hfil]

/-! ## Claims C4 and C5: the request/response transports -/

theorem setEntry_append {α : Type} (es fs : List (String × α)) (k : String) (v : α) :
    setEntry (es ++ fs) k v = setEntry es k v ++ setEntry fs k v := by
  simp [setEntry]

theorem handleResponse_lookup_ne (s : ClientState) (r : Response) (j : String)
    (hne : j ≠ r.id) : clientLookup (handleResponse s r) j = clientLookup s j := by
  unfold handleResponse clientLookup
  by_cases h : alookup r.id s.entries = some .pending
  · simp only [if_pos h]
    exact alookup_setEntry_ne hne s.entries _
  · simp only [if_neg h]

theorem processResponses_lookup_not_mem (rs : List Response) :
    ∀ (s : ClientState) (j : String), j ∉ rs.map Response.id →
      clientLookup (processResponses s rs) j = clientLookup s j := by
  induction rs with
  | nil => intro s j _; rfl
  | cons r rest ih =>
      intro s j hj
      simp only [List.map_cons, List.mem_cons] at hj
      push_neg at hj
      show clientLookup (processResponses (handleResponse s r) rest) j = _
      rw [ih _ j hj.2, handleResponse_lookup_ne s r j hj.1]

/-- C5 (confirmed): responses are matched to pending completions purely
by the echoed correlation id.  A response whose id has no pending
completion changes nothing; and for any set of issued requests, whatever
order their (id-distinct) responses arrive in, each one settles exactly
the completion of the request whose id it echoes — resolving it on a
success payload and rejecting it on an error. -/
theorem transport_correlation :
    (∀ (s : ClientState) (r : Response), clientLookup s r.id ≠ some .pending →
        handleResponse s r = s) ∧
    (∀ (rs : List Response) (s : ClientState), (rs.map Response.id).Nodup →
        ∀ r ∈ rs, clientLookup s r.id = some .pending →
          clientLookup (processResponses s rs) r.id = some (interpResponse r)) := by
  constructor
  · intro s r h
    unfold clientLookup at h
    unfold handleResponse
    rw [if_neg h]
  · intro rs
    induction rs with
    | nil => intro s _ r hr; cases hr
    | cons r0 rest ih =>
        intro s hnd r hr hp
        simp only [List.map_cons, List.nodup_cons] at hnd
        rcases List.mem_cons.mp hr with rfl | hr2
        · show clientLookup (processResponses (handleResponse s r) rest) r.id = _
          rw [processResponses_lookup_not_mem rest _ _ hnd.1]
          unfold clientLookup at hp ⊢
          unfold handleResponse
          rw [if_pos hp]
          exact alookup_setEntry_self _ (by rw [hp]; rfl)
        · have hne : r.id ≠ r0.id := by
            intro he
            exact hnd.1 (he ▸ List.mem_map_of_mem Response.id hr2)
          show clientLookup (processResponses (handleResponse s r0) rest) r.id = _
          apply ih _ hnd.2 r hr2
          rw [handleResponse_lookup_ne s r0 r.id hne]
          exact hp

/-- C5, witness: two pending requests answered out of order, an error
response for one and a success for the other, plus an unmatched id. -/
theorem transport_correlation_witness :
    clientLookup (processResponses ⟨[("0", .pending), ("1", .pending)], 2⟩
        [⟨"1", none, "b"⟩, ⟨"0", some "boom", ""⟩]) "1" = some (.resolvedWith "b") ∧
    clientLookup (processResponses ⟨[("0", .pending), ("1", .pending)], 2⟩
        [⟨"1", none, "b"⟩, ⟨"0", some "boom", ""⟩]) "0" = some (.rejectedWith "boom") ∧
    handleResponse ⟨[("0", .pending), ("1", .pending)], 2⟩ ⟨"9", none, "x"⟩ =
      ⟨[("0", .pending), ("1", .pending)], 2⟩ :=
  ⟨transport_correlation.2 [⟨"1", none, "b"⟩, ⟨"0", some "boom", ""⟩]
      ⟨[("0", .pending), ("1", .pending)], 2⟩ (by decide)
      ⟨"1", none, "b"⟩ (by decide) (by decide),
   transport_correlation.2 [⟨"1", none, "b"⟩, ⟨"0", some "boom", ""⟩]
      ⟨[("0", .pending), ("1", .pending)], 2⟩ (by decide)
      ⟨"0", some "boom", ""⟩ (by decide) (by decide),
   transport_correlation.1 ⟨[("0", .pending), ("1", .pending)], 2⟩
      ⟨"9", none, "x"⟩ (by decide)⟩

/-- C4, counterexample.  In `WasmCanvasDrawingContext.sendMessage` no
timeout is ever scheduled: after issuing request `0` and receiving only
non-matching responses, the completion of `0` is still pending — it is
neither rejected with a timeout condition nor removed from the table. -/
theorem transport_timeout_counterexample :
    clientLookup
        (processResponses (clientSend initialClient).1
          [⟨"1", none, "late"⟩, ⟨"2", some "E", ""⟩]) "0" = some .pending := by
  decide

/-- C4, amended: only the `WasmDrawEngine` issuer arms a (five-second)
timeout per request: on expiry the pending completion is rejected with a
timed-out error and leaves the pending set, and a response arriving
afterwards no longer matches it.  The `WasmCanvasDrawingContext` issuer
schedules no timeout at all: a registered completion stays pending
indefinitely unless a response echoing its id arrives. -/
theorem transport_timeout_amended :
    (∀ (s : WClient) (ty : String),
        alookup (ty ++ "_" ++ toString s.requestIdCounter) s.wentries = none →
        alookup (wSendRequest s ty).2
            (wExpire (wSendRequest s ty).1 (wSendRequest s ty).2 ty).wentries =
          some (.rejectedWith ("Request " ++ ty ++ " timed out")) ∧
        ∀ data, alookup (wSendRequest s ty).2
            (wHandleResponse (wExpire (wSendRequest s ty).1 (wSendRequest s ty).2 ty)
              ty data).wentries =
          some (.rejectedWith ("Request " ++ ty ++ " timed out"))) ∧
    (∀ (s : ClientState) (id : String) (rs : List Response),
        clientLookup s id = some .pending → id ∉ rs.map Response.id →
        clientLookup (processResponses s rs) id = some .pending) := by
  constructor
  · intro s ty habs
    set id := ty ++ "_" ++ toString s.requestIdCounter with hid
    have hsend : (wSendRequest s ty).2 = id := rfl
    have hsent : (wSendRequest s ty).1.wentries = s.wentries ++ [(id, .pending)] := rfl
    have hlook : alookup id (s.wentries ++ [(id, .pending)]) = some .pending := by
      rw [alookup_append_of_none _ habs]
      simp [alookup]
    have hexp : (wExpire (wSendRequest s ty).1 id ty).wentries =
        s.wentries ++ [(id, .rejectedWith ("Request " ++ ty ++ " timed out"))] := by
      unfold wExpire
      rw [hsent, if_pos hlook]
      show setEntry (s.wentries ++ [(id, .pending)]) id _ = _
      rw [setEntry_append, setEntry_of_none _ habs]
      simp [setEntry]
    have hlook2 : alookup id
        (s.wentries ++ [(id, .rejectedWith ("Request " ++ ty ++ " timed out"))]) =
        some (.rejectedWith ("Request " ++ ty ++ " timed out")) := by
      rw [alookup_append_of_none _ habs]
      simp [alookup]
    refine ⟨by rw [hsend, hexp]; exact hlook2, ?_⟩
    intro data
    rw [hsend]
    unfold wHandleResponse
    rcases hf : ((wExpire (wSendRequest s ty).1 id ty).wentries).find?
        (fun p => p.1.startsWith ty && p.2.isPending) with _ | p
    · simp only [hf]
      rw [hexp]
      exact hlook2
    · simp only [hf]
      have hmem := List.mem_of_find?_eq_some hf
      have hpred := List.find?_some hf
      rw [hexp] at hmem
      have hpend : p.2.isPending = true := by
        have := (Bool.and_eq_true _ _).mp hpred
        exact this.2
      have hpe : p ∈ s.wentries := by
        rcases List.mem_append.mp hmem with hin | hin
        · exact hin
        · exfalso
          simp only [List.mem_singleton] at hin
          rw [hin] at hpend
          simp [Outcome.isPending] at hpend
      have hpne : id ≠ p.1 := fun he => alookup_eq_none_forall habs p hpe he.symm
      show alookup id (setEntry (wExpire (wSendRequest s ty).1 id ty).wentries p.1 _) = _
      rw [hexp, setEntry_append]
      have hone : setEntry [(id, Outcome.rejectedWith ("Request " ++ ty ++ " timed out"))]
          p.1 (.resolvedWith data) =
          [(id, Outcome.rejectedWith ("Request " ++ ty ++ " timed out"))] := by
        simp [setEntry, fun h : id = p.1 => hpne h]
      rw [hone, alookup_append_of_none _ (alookup_setEntry_none _ habs)]
      simp [alookup]
  · intro s id rs hp hnm
    rw [processResponses_lookup_not_mem rs s id hnm]
    exact hp

/-- C4, witness for the amended theorem at concrete inputs. -/
theorem transport_timeout_amended_witness :
    alookup (wSendRequest ⟨[], 0⟩ "init").2
        (wExpire (wSendRequest ⟨[], 0⟩ "init").1 (wSendRequest ⟨[], 0⟩ "init").2
          "init").wentries =
      some (.rejectedWith ("Request " ++ "init" ++ " timed out")) ∧
    clientLookup (processResponses ⟨[("0", .pending)], 1⟩ [⟨"3", none, "x"⟩]) "0" =
      some .pending :=
  ⟨(transport_timeout_amended.1 ⟨[], 0⟩ "init" rfl).1,
   transport_timeout_amended.2 ⟨[("0", .pending)], 1⟩ "0" [⟨"3", none, "x"⟩]
      rfl (by decide)⟩

/-! ## Claim C6: stroke resampling leaves no wide gaps -/

theorem consecutiveGapsSq_cons_cons (p q : ℚ × ℚ) (t : List (ℚ × ℚ)) :
    consecutiveGapsSq (p :: q :: t) =
      ((q.1 - p.1) ^ 2 + (q.2 - p.2) ^ 2) :: consecutiveGapsSq (q :: t) := rfl

theorem consecutiveGapsSq_map_range :
    ∀ (n : ℕ) (g : ℕ → ℚ × ℚ),
      consecutiveGapsSq ((List.range (n + 1)).map g) =
        (List.range n).map (fun i =>
          ((g (i + 1)).1 - (g i).1) ^ 2 + ((g (i + 1)).2 - (g i).2) ^ 2) := by
  intro n
  induction n with
  | zero => intro g; rfl
  | succ n ih =>
      intro g
      have hL : (List.range (n + 1 + 1)).map g =
          g 0 :: (List.range (n + 1)).map (fun i => g (i + 1)) := by
        rw [List.range_succ_eq_map]
        simp [List.map_map, Function.comp]
      have hR : (List.range (n + 1)).map (fun i => g (i + 1)) =
          g 1 :: (List.range n).map (fun i => g (i + 1 + 1)) := by
        rw [List.range_succ_eq_map]
        simp [List.map_map, Function.comp]
      rw [hL, hR, consecutiveGapsSq_cons_cons, ← hR, ih (fun i => g (i + 1))]
      rw [List.range_succ_eq_map]
      simp [List.map_map, Function.comp]

/-- C6 (confirmed): `drawLine` resamples the segment between two
consecutive stroke points with `max 2 ⌈distance / 2⌉` equal steps.  The
emitted sample list starts at the first point, ends at the second, and
every two consecutive samples are at most two pixels apart (squared
distance at most four), so no gap wider than the two-pixel step is left
anywhere along the segment.  The exact segment length `d` enters through
the hypotheses `0 ≤ d` and `d² = (x2-x1)² + (y2-y1)²`. -/
theorem stroke_continuity (x1 y1 x2 y2 d : ℚ) (hd : 0 ≤ d)
    (hsq : d ^ 2 = (x2 - x1) ^ 2 + (y2 - y1) ^ 2) :
    (interpPoints x1 y1 x2 y2 (stepsOf d)).length = stepsOf d + 1 ∧
    (interpPoints x1 y1 x2 y2 (stepsOf d)).head? = some (x1, y1) ∧
    (interpPoints x1 y1 x2 y2 (stepsOf d)).getLast? = some (x2, y2) ∧
    ∀ gsq ∈ consecutiveGapsSq (interpPoints x1 y1 x2 y2 (stepsOf d)), gsq ≤ 4 := by
  have hs2 : 2 ≤ stepsOf d := le_max_left _ _
  have hsQpos : (0 : ℚ) < (stepsOf d : ℚ) := by
    have : (0 : ℕ) < stepsOf d := by omega
    exact_mod_cast this
  have hs0 : ((stepsOf d : ℚ)) ≠ 0 := ne_of_gt hsQpos
  refine ⟨?_, ?_, ?_, ?_⟩
  · simp [interpPoints]
  · rw [interpPoints, List.range_succ_eq_map]
    simp
  · rw [interpPoints, List.range_succ, List.map_append, List.map_singleton,
      List.getLast?_concat]
    have : (stepsOf d : ℚ) / (stepsOf d : ℚ) = 1 := div_self hs0
    rw [this]
    simp
  · intro gsq hmem
    rw [interpPoints, consecutiveGapsSq_map_range] at hmem
    rcases List.mem_map.mp hmem with ⟨i, _, hval⟩
    have hstep : ((i : ℚ) + 1) / (stepsOf d : ℚ) - (i : ℚ) / (stepsOf d : ℚ) =
        1 / (stepsOf d : ℚ) := by
      field_simp
    have hval2 : gsq = d ^ 2 / (stepsOf d : ℚ) ^ 2 := by
      rw [← hval, hsq]
      push_cast
      field_simp
      ring
    have hceil : d / 2 ≤ (stepsOf d : ℚ) := by
      have h1 : d / 2 ≤ (⌈d / 2⌉₊ : ℚ) := Nat.le_ceil _
      have h2 : (⌈d / 2⌉₊ : ℚ) ≤ (stepsOf d : ℚ) := by
        have : ⌈d / 2⌉₊ ≤ stepsOf d := le_max_right _ _
        exact_mod_cast this
      linarith
    have hd2s : d ≤ 2 * (stepsOf d : ℚ) := by linarith
    rw [hval2, div_le_iff₀ (by positivity)]
    nlinarith [hd, hd2s, hsQpos]

/-- C6, witness: the segment from `(0,0)` to `(3,4)` has exact length
`5`, is resampled in `3` steps, and every consecutive gap squared is
`25/9 ≤ 4`. -/
theorem stroke_continuity_witness :
    (0 : ℚ) ≤ 5 ∧ (5 : ℚ) ^ 2 = (3 - 0) ^ 2 + (4 - 0) ^ 2 ∧
    (∀ gsq ∈ consecutiveGapsSq (interpPoints 0 0 3 4 (stepsOf 5)), gsq ≤ 4) ∧
    (interpPoints 0 0 3 4 (stepsOf 5)).head? = some (0, 0) :=
  ⟨by norm_num, by norm_num,
   (stroke_continuity 0 0 3 4 5 (by norm_num) (by norm_num)).2.2.2,
   (stroke_continuity 0 0 3 4 5 (by norm_num) (by norm_num)).2.1⟩

/-! ## Claim C10: AddLayer reuse and draw-order uniqueness -/

theorem addRemove_preserves_nodup (c : DrawCommand) (hc : isAddOrRemove c = true)
    (s : RendererState) (h : s.layerOrder.Nodup) :
    (executeCommand s c).layerOrder.Nodup := by
  cases c with
  | addLayer id idx =>
      show (rendererAddLayer s id idx).layerOrder.Nodup
      simp only [rendererAddLayer, spliceInsert]
      set fl := s.layerOrder.filter (fun x => x ≠ id) with hfl
      have hnd : fl.Nodup := h.filter _
      have hid : id ∉ fl := by
        intro hmem
        have := List.of_mem_filter hmem
        simp at this
      rw [List.nodup_middle, List.take_append_drop]
      exact List.nodup_cons.mpr ⟨hid, hnd⟩
  | removeLayer id =>
      show (rendererRemoveLayer s id).layerOrder.Nodup
      exact h.filter _
  | clearCanvas => simp [isAddOrRemove] at hc
  | drawPath points color width id => simp [isAddOrRemove] at hc
  | updateRasterArea rect pd id => simp [isAddOrRemove] at hc
  | reorderLayers ids => simp [isAddOrRemove] at hc
  | updateLayerProperties id o b v => simp [isAddOrRemove] at hc
  | showSelection => simp [isAddOrRemove] at hc
  | clearSelection => simp [isAddOrRemove] at hc
  | applyTransform id t => simp [isAddOrRemove] at hc
  | batch cmds => simp [isAddOrRemove] at hc

/-- C10 (confirmed): executing `AddLayer` with an id already present
keeps the layer map — and in particular that id's canvas with all its
pixel content — unchanged and only moves the id inside the draw order,
where it then occurs exactly once; and after any sequence of `AddLayer`
and `RemoveLayer` commands from the initial state, the draw order
contains every layer id at most once. -/
theorem addLayer_reuse_and_order_unique :
    (∀ (s : RendererState) (id : String) (idx : ℕ) (c : LayerCanvas),
        alookup id s.layers = some c →
        (executeCommand s (.addLayer id idx)).layers = s.layers ∧
        alookup id (executeCommand s (.addLayer id idx)).layers = some c ∧
        (executeCommand s (.addLayer id idx)).layerOrder.count id = 1) ∧
    (∀ cmds : List DrawCommand, (∀ c ∈ cmds, isAddOrRemove c = true) →
        (executeCommandList initialRenderer cmds).layerOrder.Nodup) := by
  constructor
  · intro s id idx c hsome
    have hlayers : (executeCommand s (.addLayer id idx)).layers = s.layers := by
      show (rendererAddLayer s id idx).layers = s.layers
      simp [rendererAddLayer, hsome]
    refine ⟨hlayers, by rw [hlayers]; exact hsome, ?_⟩
    show (rendererAddLayer s id idx).layerOrder.count id = 1
    simp only [rendererAddLayer, spliceInsert]
    set fl := s.layerOrder.filter (fun x => x ≠ id) with hfl
    have hid : id ∉ fl := by
      intro hmem
      have := List.of_mem_filter hmem
      simp at this
    have htake : id ∉ fl.take idx := fun hm => hid (List.take_subset _ _ hm)
    have hdrop : id ∉ fl.drop idx := fun hm => hid (List.drop_subset _ _ hm)
    rw [List.count_append, List.count_cons_self,
      List.count_eq_zero_of_not_mem htake, List.count_eq_zero_of_not_mem hdrop]
  · suffices hgen : ∀ (cmds : List DrawCommand),
        (∀ c ∈ cmds, isAddOrRemove c = true) →
        ∀ s : RendererState, s.layerOrder.Nodup →
        (executeCommandList s cmds).layerOrder.Nodup by
      intro cmds hall
      exact hgen cmds hall initialRenderer (by simp [initialRenderer])
    intro cmds
    induction cmds with
    | nil => intro _ s hs; exact hs
    | cons c cs ih =>
        intro hall s hs
        exact ih (fun c2 hc2 => hall c2 (List.mem_cons_of_mem _ hc2)) _
          (addRemove_preserves_nodup c (hall c (List.mem_cons_self _ _)) s hs)

/-- C10, witness: re-adding the existing layer `A` (whose canvas holds a
stroke) at index `3` keeps the map intact, and a concrete add/remove
sequence leaves a duplicate-free draw order. -/
theorem addLayer_reuse_and_order_unique_witness :
    (executeCommand ⟨[("A", ⟨[.strokePath [⟨1, 1⟩] "red" 2], none, none, none⟩)], ["A"]⟩
        (.addLayer "A" 3)).layers =
      [("A", ⟨[.strokePath [⟨1, 1⟩] "red" 2], none, none, none⟩)] ∧
    (executeCommandList initialRenderer
        [.addLayer "A" 0, .addLayer "B" 0, .addLayer "A" 5,
         .removeLayer "B"]).layerOrder.Nodup :=
  ⟨(addLayer_reuse_and_order_unique.1
      ⟨[("A", ⟨[.strokePath [⟨1, 1⟩] "red" 2], none, none, none⟩)], ["A"]⟩
      "A" 3 ⟨[.strokePath [⟨1, 1⟩] "red" 2], none, none, none⟩ (by decide)).1,
   addLayer_reuse_and_order_unique.2
      [.addLayer "A" 0, .addLayer "B" 0, .addLayer "A" 5, .removeLayer "B"]
      (by intro c hc; fin_cases hc <;> rfl)⟩

/-- C9, witness at concrete inputs. -/
theorem unknown_stroke_handling_witness :
    workerAddPoint (fun q => q) ⟨[("0", ⟨[1, 1], ⟨2, 1, 1/2, true⟩, ⟨0, 0, 0, 1⟩⟩)], 1, []⟩
        "7" 3 4 = .error ("Stroke " ++ "7" ++ " not found") ∧
    workerEndStroke ⟨[("0", ⟨[1, 1], ⟨2, 1, 1/2, true⟩, ⟨0, 0, 0, 1⟩⟩)], 1, []⟩ "7" =
      ⟨[("0", ⟨[1, 1], ⟨2, 1, 1/2, true⟩, ⟨0, 0, 0, 1⟩⟩)], 1, []⟩ :=
  ⟨(unknown_stroke_handling ⟨[("0", ⟨[1, 1], ⟨2, 1, 1/2, true⟩, ⟨0, 0, 0, 1⟩⟩)], 1, []⟩
      ⟨[], 0, []⟩ "7" (by decide) rfl (fun q => q) 3 4 ⟨0, 0⟩).1,
   (unknown_stroke_handling ⟨[("0", ⟨[1, 1], ⟨2, 1, 1/2, true⟩, ⟨0, 0, 0, 1⟩⟩)], 1, []⟩
      ⟨[], 0, []⟩ "7" (by decide) rfl (fun q => q) 3 4 ⟨0, 0⟩).2.1⟩

end Kinegraph
